import Mathlib

/-!
Verification of the bin-day-brain collection-schedule logic.

Dates are modelled as natural-number day indices counted from 1970-01-01
(day 0, a Thursday).  All date arithmetic in the clients
(`setDate`/`Duration` adds, midnight truncation) is exact day arithmetic,
so the embedding works at the level of these day numbers; the fixed
display hour carried by the produced date strings is not modelled, and
timezone/DST artefacts of the host `Date` type are abstracted away.
-/

namespace BinDayBrain

/-- Gregorian leap-year rule, as implemented by the host date libraries. -/
def isLeapYear (y : ℕ) : Bool :=
  (y % 4 == 0 && y % 100 != 0) || (y % 400 == 0)

/-- Number of days in calendar year `y`. -/
def daysInYear (y : ℕ) : ℕ :=
  if isLeapYear y then 366 else 365

/-- Day number of January 1 of year `1970 + k` (days since 1970-01-01). -/
def daysBeforeYear : ℕ → ℕ
  | 0 => 0
  | k + 1 => daysBeforeYear k + daysInYear (1970 + k)

/-- Year index `k` (year `1970 + k`) containing day number `n`:
the largest `k` with `daysBeforeYear k ≤ n`. -/
def yearIndexOf (n : ℕ) : ℕ :=
  Nat.findGreatest (fun k => daysBeforeYear k ≤ n) (n / 365 + 1)

/-- JavaScript `Date.getDay()` of day number `n`: 0 = Sunday … 6 = Saturday.
Day 0 (1970-01-01) is a Thursday, i.e. 4. -/
def jsWeekday (n : ℕ) : ℕ := (n + 4) % 7

/-- ISO weekday (Monday = 1 … Sunday = 7) of day number `n`.
This is `d.getDay() || 7` in the web app and `DateTime.weekday` in Dart. -/
def isoWeekday (n : ℕ) : ℕ :=
  if jsWeekday n = 0 then 7 else jsWeekday n

/-- `getISOWeek` from `web-app/app.js`:
shift the date to the Thursday of its Monday-based week
(`d.setDate(d.getDate() + 4 - (d.getDay() || 7))`), then return
`ceil((daysSinceJan1OfThatThursdaysYear + 1) / 7)`. -/
def getISOWeek (n : ℕ) : ℕ :=
  let t := n + 4 - isoWeekday n
  let yearStart := daysBeforeYear (yearIndexOf t)
  (t - yearStart + 1 + 6) / 7

/-- `_getIsoWeek` from `android-app/lib/main.dart`:
`dayOfYear = date.difference(DateTime(date.year, 1, 1)).inDays` (0-based),
then `((dayOfYear - date.weekday + 10) / 7).floor()`. -/
def getIsoWeekDart (n : ℕ) : ℕ :=
  let dayOfYear := n - daysBeforeYear (yearIndexOf n)
  (dayOfYear + 10 - isoWeekday n) / 7

/-- Spec-side definition of the ISO-8601 week number, written from the
spec's words: weeks start on Monday, and week 1 is the week containing
the year's first Thursday.  A date's week is numbered by its week's
Thursday: week number = 1 + (weeks elapsed since the first Thursday of
that Thursday's year). -/
def mondayOfWeek (n : ℕ) : ℕ := n - (isoWeekday n - 1)

/-- Thursday of the Monday-based week containing day `n` (spec side). -/
def thursdayOfWeek (n : ℕ) : ℕ := mondayOfWeek n + 3

/-- First Thursday of year `1970 + k` (spec side): the least Thursday on
or after January 1 of that year. -/
def firstThursday (k : ℕ) : ℕ :=
  daysBeforeYear k + (4 + 7 - isoWeekday (daysBeforeYear k)) % 7

/-- ISO-8601 week-of-year number of day `n`, per the spec's convention. -/
def isoWeekSpec (n : ℕ) : ℕ :=
  let t := thursdayOfWeek n
  (t - firstThursday (yearIndexOf t)) / 7 + 1

/-!
### Fallback schedule calculation (`calculateCollections`, web-app/app.js)
-/

/-- `daysAhead` of `calculateCollections`: the API weekday `d` (1 = Mon …
7 = Sun) is converted to the JS convention (`7 → 0`), the current weekday
is subtracted, and 7 is added when the difference is negative. -/
def daysAheadOf (collectionDay today : ℕ) : ℕ :=
  let jsDay := if collectionDay = 7 then 0 else collectionDay
  let w := jsWeekday today
  if jsDay < w then jsDay + 7 - w else jsDay - w

/-- `nextCollection` of `calculateCollections`: `today + daysAhead` days. -/
def nextCollectionDate (collectionDay today : ℕ) : ℕ :=
  today + daysAheadOf collectionDay today

/-- Recycling date of the fallback path: `nextCollection` on an even ISO
week, else one week later. -/
def fallbackRecyclingDate (collectionDay today : ℕ) : ℕ :=
  let next := nextCollectionDate collectionDay today
  if getISOWeek next % 2 = 0 then next else next + 7

/-- Landfill date of the fallback path: the complementary choice. -/
def fallbackLandfillDate (collectionDay today : ℕ) : ℕ :=
  let next := nextCollectionDate collectionDay today
  if getISOWeek next % 2 = 0 then next + 7 else next

/-- One entry of a `collections` list: a free-text stream name and an
optional next-collection date (`collection.next?.date`). -/
structure CollEntry where
  type : String
  date : Option ℕ
deriving DecidableEq, Repr

/-- `calculateCollections(collectionDay)` from web-app/app.js: the three
entries produced by the fallback path. -/
def calculateCollections (collectionDay today : ℕ) : List CollEntry :=
  [⟨"FOGO", some (nextCollectionDate collectionDay today)⟩,
   ⟨"Recycling", some (fallbackRecyclingDate collectionDay today)⟩,
   ⟨"Landfill", some (fallbackLandfillDate collectionDay today)⟩]

/-!
### Cache lifecycle (`refreshData`, `saveCache`, `loadCachedData`)
-/

/-- The schedule record: the fields of the property response / persisted
cache that the app consumes (`collections`, `collection_day`,
`cached_at`).  `collections = none` models an absent field. -/
structure CacheData where
  collections : Option (List CollEntry)
  collectionDay : Option ℕ
  cachedAt : Option ℕ
deriving DecidableEq, Repr

/-- Outcome of the schedule request as seen by `apiGet`: a thrown network
error, a non-OK HTTP status (`if (!response.ok) throw`), or a parsed
body. -/
inductive ApiResult where
  | networkError
  | httpError
  | ok (data : CacheData)

/-- `apiGet` from web-app/app.js: returns `null` on any error, the parsed
data otherwise. -/
def apiGet (r : ApiResult) : Option CacheData :=
  match r with
  | .networkError => none
  | .httpError => none
  | .ok d => some d

/-- `!data.collections || data.collections.length === 0`. -/
def collectionsEmpty (d : CacheData) : Bool :=
  match d.collections with
  | none => true
  | some l => l.isEmpty

/-- The shared fallback step of `refreshData` and `loadCachedData`:
`if ((!data.collections || data.collections.length === 0) && data.collection_day)
 data.collections = calculateCollections(data.collection_day)`.
JS truthiness makes a `collection_day` of `0` fall through. -/
def applyFallback (today : ℕ) (d : CacheData) : CacheData :=
  match d.collectionDay with
  | some cd =>
      if collectionsEmpty d && cd != 0 then
        { d with collections := some (calculateCollections cd today) }
      else d
  | none => d

/-- `saveCache` from web-app/app.js: stamp `cached_at` and persist the
whole record. -/
def saveCache (now : ℕ) (d : CacheData) : CacheData :=
  { d with cachedAt := some now }

/-- `refreshData` from web-app/app.js, restricted to its effect on the
persisted cache: on a null response the stored value is untouched;
otherwise the (fallback-completed) response is saved. -/
def refreshData (r : ApiResult) (today now : ℕ) (cache : Option CacheData) :
    Option CacheData :=
  match apiGet r with
  | none => cache
  | some d => some (saveCache now (applyFallback today d))

/-- `loadCachedData` from web-app/app.js: read the stored snapshot and
complete it with the fallback calculation when needed. -/
def loadCachedData (today : ℕ) (cache : Option CacheData) : Option CacheData :=
  match cache with
  | none => none
  | some c => some (applyFallback today c)

/-!
### Stream assignment (`updateCards` / `_buildBinCards`)
-/

/-- The three collection streams. -/
inductive BinStream where
  | organic
  | recycling
  | landfill
deriving DecidableEq, Repr

/-- JS `hay.includes(sub)` / Dart `contains`, over character lists. -/
def charsContain (sub : List Char) : List Char → Bool
  | [] => sub.isEmpty
  | c :: rest => sub.isPrefixOf (c :: rest) || charsContain sub rest

/-- Substring test used by the stream matching. -/
def strContains (hay sub : String) : Bool :=
  charsContain sub.toList hay.toList

/-- `toLowerCase` / `toLowerCase()`, character by character. -/
def lowerStr (s : String) : String :=
  ⟨s.data.map Char.toLower⟩

/-- The stream-name matching chain of `updateCards` / `_buildBinCards`,
applied to the lower-cased type name. -/
def classify (ty : String) : Option BinStream :=
  let t := lowerStr ty
  if strContains t "fogo" || strContains t "organic" then some .organic
  else if strContains t "recycling" then some .recycling
  else if strContains t "landfill" || strContains t "garbage" ||
      strContains t "waste" then some .landfill
  else none

/-- Resolved per-stream dates of one rendering pass (`binData` in Dart;
the three cards in the web app). -/
structure CardState where
  fogo : Option ℕ
  recycling : Option ℕ
  landfill : Option ℕ
deriving DecidableEq, Repr

/-- All three cards unresolved. -/
def emptyCards : CardState := ⟨none, none, none⟩

/-- Read one stream's resolved date. -/
def getCard (st : CardState) : BinStream → Option ℕ
  | .organic => st.fogo
  | .recycling => st.recycling
  | .landfill => st.landfill

/-- Write one stream's resolved date. -/
def setCard (st : CardState) (s : BinStream) (dt : ℕ) : CardState :=
  match s with
  | .organic => { st with fogo := some dt }
  | .recycling => { st with recycling := some dt }
  | .landfill => { st with landfill := some dt }

/-- One iteration of the entry loop: an entry updates a card only when
its name classifies to a stream and it carries a date. -/
def updateCardsStep (st : CardState) (e : CollEntry) : CardState :=
  match classify e.type, e.date with
  | some s, some dt => setCard st s dt
  | _, _ => st

/-- The entry loop of `updateCards` / `_buildBinCards`, one resolution
pass starting from unresolved cards. -/
def updateCards (entries : List CollEntry) : CardState :=
  entries.foldl updateCardsStep emptyCards

/-- The date an entry contributes to stream `s`: present exactly when the
entry's name classifies to `s` and the entry carries a date. -/
def entrySelect (s : BinStream) (e : CollEntry) : Option ℕ :=
  match classify e.type, e.date with
  | some s', some dt => if s' = s then some dt else none
  | _, _ => none

/-!
### Weather step (`loadWeather`)
-/

/-- Advisory flags. -/
inductive Alert where
  | wind
  | rain
deriving DecidableEq, Repr

/-- The `daily` part of the forecast response: wind-speed maxima and
precipitation sums, or `none` when the field is missing. -/
structure WeatherResp where
  daily : Option (List ℚ × List ℚ)

/-- The guard and request size of `loadWeather`: find the nearest
displayed collection date; skip unless `0 ≤ daysAhead ≤ 7`; otherwise
request `daysAhead + 1` forecast days. -/
def weatherFetchPlan (dates : List ℕ) (today : ℕ) : Option ℕ :=
  match dates.min? with
  | none => none
  | some nearest =>
      let daysAhead : ℤ := (nearest : ℤ) - (today : ℤ)
      if daysAhead < 0 ∨ 7 < daysAhead then none
      else some (daysAhead + 1).toNat

/-- The two advisory threshold checks of `loadWeather`:
wind ≥ 40 km/h and rain ≥ 5 mm. -/
def classifyAlerts (wind rain : ℚ) : List Alert :=
  (if 40 ≤ wind then [Alert.wind] else []) ++
  (if 5 ≤ rain then [Alert.rain] else [])

/-- `loadWeather`, as a function from the previously displayed alerts,
the displayed collection dates, and the forecast outcome to the
displayed alerts.  A missing response (network error / exception) or a
missing `daily` object leaves the alerts untouched; an out-of-bounds
index reads `undefined`, whose threshold comparisons are false. -/
def loadWeather (prevAlerts : List Alert) (dates : List ℕ) (today : ℕ)
    (resp : Option WeatherResp) : List Alert :=
  match weatherFetchPlan dates today with
  | none => prevAlerts
  | some forecastDays =>
      let idx := forecastDays - 1
      match resp with
      | none => prevAlerts
      | some r =>
          match r.daily with
          | none => prevAlerts
          | some (windArr, rainArr) =>
              match windArr.get? idx, rainArr.get? idx with
              | some w, some rn => classifyAlerts w rn
              | some w, none => if 40 ≤ w then [Alert.wind] else []
              | none, some rn => if 5 ≤ rn then [Alert.rain] else []
              | none, none => []

/-- Dates displayed from a cache value: the dates of its collections. -/
def cacheDates (c : Option CacheData) : List ℕ :=
  match c with
  | none => []
  | some d => (d.collections.getD []).filterMap (fun e => e.date)

/-- One refresh round of the dashboard: the cache effect of
`refreshData` followed, only on a non-null response, by the weather
step over the freshly displayed dates. -/
def refreshSession (r : ApiResult) (today now : ℕ) (cache : Option CacheData)
    (prevAlerts : List Alert) (wresp : Option WeatherResp) :
    Option CacheData × List Alert :=
  match apiGet r with
  | none => (cache, prevAlerts)
  | some d =>
      let newCache := some (saveCache now (applyFallback today d))
      (newCache, loadWeather prevAlerts (cacheDates newCache) today wresp)

/-!
### Cloudflare Worker proxy (src/unnamed/part_001)
-/

/-- The upstream waste API base. -/
def apiBase : String := "https://wollongong.waste-info.com.au/api/v1"

/-- `ALLOWED_PATHS` of the worker. -/
def allowedPaths : List String :=
  ["/localities.json", "/streets.json", "/properties.json",
   "/materials.json", "/events.json"]

/-- JS `s.replace(pat, '')`: remove the first occurrence of `pat`. -/
def removeFirstOccur (pat : List Char) : List Char → List Char
  | [] => []
  | c :: rest =>
      if pat.isPrefixOf (c :: rest) then (c :: rest).drop pat.length
      else c :: removeFirstOccur pat rest

/-- `allowed.replace('.json', '')` from the worker. -/
def replaceDotJson (s : String) : String :=
  ⟨removeFirstOccur ".json".toList s.toList⟩

/-- The worker's regex test `path.match(/^\/properties\/\d+\.json$/)`:
`/properties/`, then one or more digits, then `.json`, nothing else. -/
def propertiesJsonMatch (path : String) : Bool :=
  let l := path.toList
  decide (17 < l.length) && "/properties/".toList.isPrefixOf l &&
    ".json".toList.isSuffixOf l &&
    ((l.drop 12).take (l.length - 17)).all Char.isDigit

/-- JS `path.startsWith(pre)`, over character lists. -/
def strStartsWith (hay pre : String) : Bool :=
  pre.toList.isPrefixOf hay.toList

/-- The worker's allowlist check. -/
def isAllowedPath (path : String) : Bool :=
  allowedPaths.any (fun allowed => strStartsWith path (replaceDotJson allowed)) ||
    propertiesJsonMatch path

/-- An incoming request to the worker. -/
structure ProxyRequest where
  method : String
  path : String
  search : String

/-- What the worker does with a request: answer the CORS preflight,
refuse with an error response, or forward to the upstream API. -/
inductive ProxyAction where
  | preflight
  | errorResp (status : ℕ) (body : String)
  | forwardTo (url : String)
deriving DecidableEq, Repr

/-- The worker's `fetch` handler, up to the upstream call: OPTIONS gets
the preflight response; a disallowed path gets a 403 with an error body;
an allowed path is forwarded to `API_BASE + path + url.search`. -/
def workerFetch (req : ProxyRequest) : ProxyAction :=
  if req.method = "OPTIONS" then .preflight
  else if isAllowedPath req.path then
    .forwardTo (apiBase ++ req.path ++ req.search)
  else .errorResp 403 "\x7b\"error\":\"Not allowed\"\x7d"

/-!
## Shared helper lemmas
-/

/-- A null weather response (network error / thrown exception) leaves the
alerts exactly as they were. -/
theorem loadWeather_resp_none (prev : List Alert) (dates : List ℕ) (today : ℕ) :
    loadWeather prev dates today none = prev := by
  unfold loadWeather
  cases weatherFetchPlan dates today <;> rfl

/-- A response without a `daily` object leaves the alerts exactly as they
were. -/
theorem loadWeather_no_daily (prev : List Alert) (dates : List ℕ) (today : ℕ) :
    loadWeather prev dates today (some ⟨none⟩) = prev := by
  unfold loadWeather
  cases weatherFetchPlan dates today <;> rfl

/-!
## Claims C1 and C2: cache lifecycle on refresh
-/

/-- C1 counterexample: with a prior snapshot in the cache, a refresh whose
response has neither `collections` nor `collection_day` does NOT preserve
the snapshot — `refreshData` saves the empty response over it. -/
theorem c1_counterexample :
    refreshData (.ok ⟨none, none, none⟩) 0 7
        (some ⟨some [⟨"FOGO", some 100⟩], none, some 1⟩) =
      some ⟨none, none, some 7⟩ ∧
    refreshData (.ok ⟨none, none, none⟩) 0 7
        (some ⟨some [⟨"FOGO", some 100⟩], none, some 1⟩) ≠
      some ⟨some [⟨"FOGO", some 100⟩], none, some 1⟩ := by
  constructor <;> decide

/-- C1 (amended): the prior snapshot survives a refresh only when the
request itself fails (`apiGet` returns nothing).  When the remote answers
with a record that has neither `collections` nor `collection_day` (the
ScheduleUnavailable condition), `refreshData` overwrites the cache with
that empty record, and a subsequent load returns the empty record, not
the prior snapshot. -/
theorem c1_schedule_unavailable_overwrites (d : CacheData) (today now : ℕ)
    (cache : Option CacheData)
    (hempty : collectionsEmpty d = true) (hday : d.collectionDay = none) :
    refreshData (.ok d) today now cache = some (saveCache now d) ∧
    loadCachedData today (refreshData (.ok d) today now cache) =
      some (applyFallback today (saveCache now d)) ∧
    ∀ r : ApiResult, apiGet r = none → refreshData r today now cache = cache := by
  refine ⟨?_, ?_, ?_⟩
  · simp [refreshData, apiGet, applyFallback, hday]
  · simp [refreshData, apiGet, applyFallback, hday, loadCachedData]
  · intro r hr
    unfold refreshData
    rw [hr]

/-- C1 witness: the amended theorem evaluated on a concrete prior cache
and an empty response. -/
theorem c1_witness :
    refreshData (.ok ⟨none, none, none⟩) 3 7
        (some ⟨some [⟨"FOGO", some 100⟩], none, some 1⟩) =
      some (saveCache 7 ⟨none, none, none⟩) :=
  (c1_schedule_unavailable_overwrites ⟨none, none, none⟩ 3 7
    (some ⟨some [⟨"FOGO", some 100⟩], none, some 1⟩) (by decide) rfl).1

/-- C2: a failed refresh (network error or non-OK response) leaves the
persisted snapshot unchanged, and a subsequent load returns exactly what
a load before the attempt would have returned. -/
theorem c2_failed_refresh_preserves_cache (r : ApiResult) (today now : ℕ)
    (cache : Option CacheData)
    (h : r = ApiResult.networkError ∨ r = ApiResult.httpError) :
    refreshData r today now cache = cache ∧
    loadCachedData today (refreshData r today now cache) =
      loadCachedData today cache := by
  rcases h with h | h <;> subst h <;> exact ⟨rfl, rfl⟩

/-- C2 witness: a network error over a concrete prior snapshot. -/
theorem c2_witness :
    refreshData ApiResult.networkError 0 5
        (some ⟨some [⟨"FOGO", some 3⟩], none, some 1⟩) =
      some ⟨some [⟨"FOGO", some 3⟩], none, some 1⟩ :=
  (c2_failed_refresh_preserves_cache ApiResult.networkError 0 5
    (some ⟨some [⟨"FOGO", some 3⟩], none, some 1⟩) (Or.inl rfl)).1

/-!
## Claim C7: weather guard and request size
-/

/-- C7: whenever the weather step decides to fetch (`weatherFetchPlan`
returns a request size), the day offset to the nearest collection date is
in `[0, 7]`, the request covers `daysAhead + 1` days, and the array index
`daysAhead` is the last position of any array of the requested length. -/
theorem c7_weather_guard (dates : List ℕ) (today k : ℕ)
    (h : weatherFetchPlan dates today = some k) :
    ∃ nearest, dates.min? = some nearest ∧
      0 ≤ (nearest : ℤ) - (today : ℤ) ∧ (nearest : ℤ) - (today : ℤ) ≤ 7 ∧
      k = ((nearest : ℤ) - (today : ℤ)).toNat + 1 ∧
      ((nearest : ℤ) - (today : ℤ)).toNat = k - 1 ∧
      ∀ arr : List ℚ, arr.length = k →
        ((nearest : ℤ) - (today : ℤ)).toNat < arr.length := by
  unfold weatherFetchPlan at h
  cases hm : dates.min? with
  | none => rw [hm] at h; exact absurd h (by simp)
  | some nearest =>
      rw [hm] at h
      simp only at h
      split_ifs at h with hguard
      all_goals simp only [Option.some.injEq] at h ⊢
      all_goals push_neg at hguard
      refine ⟨nearest, rfl, by omega, by omega, by omega, by omega, ?_⟩
      intro arr harr
      omega

/-- C7 witness: nearest collection two days out requests three forecast
days, and index 2 is the last element of a three-element array. -/
theorem c7_witness :
    weatherFetchPlan [10] 8 = some 3 ∧
    ∃ nearest, ([10] : List ℕ).min? = some nearest ∧
      0 ≤ (nearest : ℤ) - (8 : ℕ) ∧ (nearest : ℤ) - (8 : ℕ) ≤ 7 ∧
      3 = ((nearest : ℤ) - (8 : ℕ)).toNat + 1 ∧
      ((nearest : ℤ) - (8 : ℕ)).toNat = 3 - 1 ∧
      ∀ arr : List ℚ, arr.length = 3 →
        ((nearest : ℤ) - (8 : ℕ)).toNat < arr.length :=
  ⟨by decide, c7_weather_guard [10] 8 3 (by decide)⟩

/-!
## Claim C8: advisory thresholds
-/

/-- C8: the Wind flag fires exactly when wind ≥ 40 km/h, the Rain flag
exactly when precipitation ≥ 5 mm, both boundaries inclusive, and the
two flags are independent (both can fire together). -/
theorem c8_alert_thresholds :
    (∀ wind rain : ℚ,
      (Alert.wind ∈ classifyAlerts wind rain ↔ 40 ≤ wind) ∧
      (Alert.rain ∈ classifyAlerts wind rain ↔ 5 ≤ rain)) ∧
    classifyAlerts (399/10) (49/10) = [] ∧
    classifyAlerts 40 (49/10) = [Alert.wind] ∧
    classifyAlerts (399/10) 5 = [Alert.rain] ∧
    classifyAlerts 40 5 = [Alert.wind, Alert.rain] := by
  refine ⟨fun wind rain => ?_, ?_, ?_, ?_, ?_⟩
  · unfold classifyAlerts
    split_ifs with h1 h2 h2 <;> simp_all [List.mem_append]
  all_goals (unfold classifyAlerts; norm_num)

/-!
## Claim C9: weather failures are swallowed
-/

/-- C9 counterexample: a weather failure does not leave the advisory
list empty — alerts shown before the failed refresh survive it. -/
theorem c9_counterexample :
    (refreshSession (.ok ⟨some [⟨"FOGO", some 3⟩], none, none⟩) 0 1 none
        [Alert.wind] none).2 = [Alert.wind] ∧
    (refreshSession (.ok ⟨some [⟨"FOGO", some 3⟩], none, none⟩) 0 1 none
        [Alert.wind] none).2 ≠ [] := by
  constructor <;> decide

/-- C9 (amended): every failure of the weather step (missing response or
missing `daily` arrays) is swallowed: the advisory list is left exactly
as it was before the attempt (hence empty whenever it was empty), and the
cache state equals what the schedule refresh alone produces — the weather
outcome never affects it. -/
theorem c9_weather_failure_swallowed (r : ApiResult) (today now : ℕ)
    (cache : Option CacheData) (prev : List Alert)
    (wresp : Option WeatherResp)
    (hfail : wresp = none ∨ wresp = some ⟨none⟩) :
    (refreshSession r today now cache prev wresp).2 = prev ∧
    (refreshSession r today now cache prev wresp).1 =
      refreshData r today now cache := by
  cases r with
  | networkError => exact ⟨rfl, rfl⟩
  | httpError => exact ⟨rfl, rfl⟩
  | ok d =>
      rcases hfail with h | h <;> subst h
      · exact ⟨loadWeather_resp_none _ _ _, rfl⟩
      · exact ⟨loadWeather_no_daily _ _ _, rfl⟩

/-- C9 witness: a successful schedule refresh whose weather fetch fails
keeps the previous (empty) alerts and the refreshed cache. -/
theorem c9_witness :
    (refreshSession (.ok ⟨some [⟨"FOGO", some 3⟩], none, none⟩) 0 1 none
        [] none).2 = [] ∧
    (refreshSession (.ok ⟨some [⟨"FOGO", some 3⟩], none, none⟩) 0 1 none
        [] none).1 =
      refreshData (.ok ⟨some [⟨"FOGO", some 3⟩], none, none⟩) 0 1 none :=
  c9_weather_failure_swallowed (.ok ⟨some [⟨"FOGO", some 3⟩], none, none⟩)
    0 1 none [] none (Or.inl rfl)

/-!
## Claims C3 and C4: fallback dates
-/

/-- C3: for every fallback weekday 1..7 and every current day, the
Organic (`FOGO`) date of the fallback calculation falls on that ISO
weekday and lies between today and today + 6 inclusive. -/
theorem c3_fallback_weekday (d today : ℕ) (h1 : 1 ≤ d) (h7 : d ≤ 7) :
    isoWeekday (nextCollectionDate d today) = d ∧
    today ≤ nextCollectionDate d today ∧
    nextCollectionDate d today ≤ today + 6 := by
  simp only [nextCollectionDate, daysAheadOf, isoWeekday, jsWeekday]
  split_ifs <;> omega

/-- C3 witness: Wednesday fallback from day 0 (Thursday 1970-01-01)
resolves to day 6, a Wednesday within the coming week. -/
theorem c3_witness :
    isoWeekday (nextCollectionDate 3 0) = 3 ∧
    0 ≤ nextCollectionDate 3 0 ∧
    nextCollectionDate 3 0 ≤ 0 + 6 :=
  c3_fallback_weekday 3 0 (by decide) (by decide)

/-- C4: the fallback Recycling and Landfill dates are never equal, are
exactly 7 days apart, form the pair
\x7bnextCollection, nextCollection + 7\x7d, and Recycling takes the
earlier date exactly when the computed week number of the next
collection is even. -/
theorem c4_fallback_alternation (d today : ℕ) (h1 : 1 ≤ d) (h7 : d ≤ 7) :
    fallbackRecyclingDate d today ≠ fallbackLandfillDate d today ∧
    (fallbackRecyclingDate d today + 7 = fallbackLandfillDate d today ∨
     fallbackLandfillDate d today + 7 = fallbackRecyclingDate d today) ∧
    ((fallbackRecyclingDate d today = nextCollectionDate d today ∧
      fallbackLandfillDate d today = nextCollectionDate d today + 7) ∨
     (fallbackLandfillDate d today = nextCollectionDate d today ∧
      fallbackRecyclingDate d today = nextCollectionDate d today + 7)) ∧
    (fallbackRecyclingDate d today < fallbackLandfillDate d today ↔
      getISOWeek (nextCollectionDate d today) % 2 = 0) ∧
    calculateCollections d today =
      [⟨"FOGO", some (nextCollectionDate d today)⟩,
       ⟨"Recycling", some (fallbackRecyclingDate d today)⟩,
       ⟨"Landfill", some (fallbackLandfillDate d today)⟩] := by
  refine ⟨?_, ?_, ?_, ?_, rfl⟩ <;>
    · simp only [fallbackRecyclingDate, fallbackLandfillDate]
      split_ifs <;> simp_all <;> omega

/-- C4 witness: the alternation facts at weekday 3 from day 0. -/
theorem c4_witness :
    fallbackRecyclingDate 3 0 ≠ fallbackLandfillDate 3 0 ∧
    (fallbackRecyclingDate 3 0 + 7 = fallbackLandfillDate 3 0 ∨
     fallbackLandfillDate 3 0 + 7 = fallbackRecyclingDate 3 0) ∧
    ((fallbackRecyclingDate 3 0 = nextCollectionDate 3 0 ∧
      fallbackLandfillDate 3 0 = nextCollectionDate 3 0 + 7) ∨
     (fallbackLandfillDate 3 0 = nextCollectionDate 3 0 ∧
      fallbackRecyclingDate 3 0 = nextCollectionDate 3 0 + 7)) ∧
    (fallbackRecyclingDate 3 0 < fallbackLandfillDate 3 0 ↔
      getISOWeek (nextCollectionDate 3 0) % 2 = 0) ∧
    calculateCollections 3 0 =
      [⟨"FOGO", some (nextCollectionDate 3 0)⟩,
       ⟨"Recycling", some (fallbackRecyclingDate 3 0)⟩,
       ⟨"Landfill", some (fallbackLandfillDate 3 0)⟩] :=
  c4_fallback_alternation 3 0 (by decide) (by decide)

/-!
## Claim C6: stream assignment
-/

/-- Reading stream `s` after writing stream `s` gives the written date. -/
theorem getCard_setCard_eq (st : CardState) (s : BinStream) (dt : ℕ) :
    getCard (setCard st s dt) s = some dt := by
  cases s <;> rfl

/-- Writing one stream leaves the other streams' cards alone. -/
theorem getCard_setCard_ne (st : CardState) (s s' : BinStream) (dt : ℕ)
    (h : s' ≠ s) : getCard (setCard st s dt) s' = getCard st s' := by
  cases s <;> cases s' <;> first | rfl | exact absurd rfl h

/-- One loop iteration, seen through one stream's card. -/
theorem getCard_updateCardsStep (st : CardState) (e : CollEntry) (s : BinStream) :
    getCard (updateCardsStep st e) s = (entrySelect s e).or (getCard st s) := by
  unfold updateCardsStep entrySelect
  cases classify e.type with
  | none => cases e.date <;> rfl
  | some s' =>
      cases e.date with
      | none => rfl
      | some dt =>
          dsimp only
          by_cases h : s' = s
          · subst h
            simp [getCard_setCard_eq]
          · rw [if_neg h, getCard_setCard_ne st s' s dt (fun hss => h hss.symm)]
            rfl

/-- `getLast?` of a cons, expressed with `Option.or`. -/
theorem getLast?_cons_or {α : Type} (a : α) (l : List α) :
    (a :: l).getLast? = l.getLast?.or (some a) := by
  rw [List.getLast?_eq_head?_reverse, List.reverse_cons, List.head?_append,
    ← List.getLast?_eq_head?_reverse]
  rfl

/-- `Option.or` absorbs everything right of a sure value. -/
theorem or_some_or {α : Type} (x y : Option α) (a : α) :
    (x.or (some a)).or y = x.or (some a) := by
  cases x <;> rfl

/-- The entry loop from an arbitrary starting state: each stream's card
ends at the last date selected for it, or keeps its starting value. -/
theorem getCard_foldl_updateCardsStep (entries : List CollEntry)
    (st : CardState) (s : BinStream) :
    getCard (entries.foldl updateCardsStep st) s =
      ((entries.filterMap (entrySelect s)).getLast?).or (getCard st s) := by
  induction entries generalizing st with
  | nil => rfl
  | cons e l ih =>
      rw [List.foldl_cons, ih]
      cases he : entrySelect s e with
      | none =>
          rw [getCard_updateCardsStep, he, List.filterMap_cons, he]
          rfl
      | some dt =>
          rw [getCard_updateCardsStep, he, List.filterMap_cons, he,
            getLast?_cons_or, or_some_or]
          cases (List.filterMap (entrySelect s) l).getLast? <;> rfl

/-- C6: in one resolution pass over an explicit collections list, each
stream's resolved date is the date of the last entry whose name
classifies to that stream (case-insensitive substring matching, with the
organic match tried before recycling and recycling before landfill);
unmatched entries are discarded without effect; a stream no entry maps to
stays unresolved; and the classification matches exactly the
fogo/organic, recycling, landfill/garbage/waste substring families. -/
theorem c6_stream_assignment :
    (∀ (entries : List CollEntry) (s : BinStream),
      getCard (updateCards entries) s =
        (entries.filterMap (entrySelect s)).getLast?) ∧
    (∀ (entries : List CollEntry) (e : CollEntry), classify e.type = none →
      updateCards (entries ++ [e]) = updateCards entries) ∧
    (∀ (entries : List CollEntry) (s : BinStream),
      (∀ e ∈ entries, classify e.type ≠ some s) →
      getCard (updateCards entries) s = none) ∧
    (∀ (ty1 ty2 : String) (d1 d2 : ℕ) (s : BinStream),
      classify ty1 = some s → classify ty2 = some s →
      getCard (updateCards [⟨ty1, some d1⟩, ⟨ty2, some d2⟩]) s = some d2) ∧
    (∀ ty : String,
      (classify ty = some BinStream.organic ↔
        (strContains (lowerStr ty) "fogo" = true ∨
         strContains (lowerStr ty) "organic" = true)) ∧
      (classify ty = some BinStream.recycling ↔
        (strContains (lowerStr ty) "recycling" = true ∧
         ¬(strContains (lowerStr ty) "fogo" = true ∨
           strContains (lowerStr ty) "organic" = true))) ∧
      (classify ty = some BinStream.landfill ↔
        ((strContains (lowerStr ty) "landfill" = true ∨
          strContains (lowerStr ty) "garbage" = true ∨
          strContains (lowerStr ty) "waste" = true) ∧
         ¬(strContains (lowerStr ty) "recycling" = true) ∧
         ¬(strContains (lowerStr ty) "fogo" = true ∨
           strContains (lowerStr ty) "organic" = true))) ∧
      (classify ty = none ↔
        (¬(strContains (lowerStr ty) "fogo" = true ∨
           strContains (lowerStr ty) "organic" = true) ∧
         ¬(strContains (lowerStr ty) "recycling" = true) ∧
         ¬(strContains (lowerStr ty) "landfill" = true ∨
           strContains (lowerStr ty) "garbage" = true ∨
           strContains (lowerStr ty) "waste" = true)))) := by
  have hmain : ∀ (entries : List CollEntry) (s : BinStream),
      getCard (updateCards entries) s =
        (entries.filterMap (entrySelect s)).getLast? := by
    intro entries s
    rw [updateCards, getCard_foldl_updateCardsStep]
    cases s <;> simp [emptyCards, getCard]
  refine ⟨hmain, ?_, ?_, ?_, ?_⟩
  · intro entries e h
    have hstep : ∀ st, updateCardsStep st e = st := by
      intro st
      unfold updateCardsStep
      rw [h]
    rw [updateCards, updateCards, List.foldl_append, List.foldl_cons,
      List.foldl_nil, hstep]
  · intro entries s h
    rw [hmain]
    have : entries.filterMap (entrySelect s) = [] := by
      rw [List.filterMap_eq_nil_iff]
      intro e he
      unfold entrySelect
      cases hc : classify e.type with
      | none => cases e.date <;> rfl
      | some s' =>
          cases e.date with
          | none => rfl
          | some dt =>
              have hne : s' ≠ s := fun hss => h e he (hss ▸ hc)
              simp [hne]
    rw [this]
    rfl
  · intro ty1 ty2 d1 d2 s h1 h2
    rw [hmain]
    simp [List.filterMap_cons, entrySelect, h1, h2]
  · intro ty
    cases hfo : strContains (lowerStr ty) "fogo" <;>
      cases hor : strContains (lowerStr ty) "organic" <;>
      cases hre : strContains (lowerStr ty) "recycling" <;>
      cases hla : strContains (lowerStr ty) "landfill" <;>
      cases hga : strContains (lowerStr ty) "garbage" <;>
      cases hwa : strContains (lowerStr ty) "waste" <;>
      simp [classify, hfo, hor, hre, hla, hga, hwa]


/-- C6 witness: the assignment behavior on concrete entry lists —
last-seen wins, unknown names are dropped, absent streams stay
unresolved. -/
theorem c6_witness :
    getCard (updateCards [⟨"Landfill Waste", some 100⟩, ⟨"FOGO", some 98⟩,
        ⟨"glass", some 50⟩]) BinStream.landfill = some 100 ∧
    updateCards ([⟨"FOGO", some 98⟩] ++ [⟨"glass", some 50⟩]) =
      updateCards [⟨"FOGO", some 98⟩] ∧
    getCard (updateCards [⟨"FOGO", some 98⟩]) BinStream.recycling = none ∧
    getCard (updateCards [⟨"bin recycling", some 1⟩,
        ⟨"domestic recycling", some 2⟩]) BinStream.recycling = some 2 :=
  ⟨(c6_stream_assignment.1 _ _).trans (by decide),
   c6_stream_assignment.2.1 _ ⟨"glass", some 50⟩ (by decide),
   c6_stream_assignment.2.2.1 _ _ (by decide),
   c6_stream_assignment.2.2.2.1 "bin recycling" "domestic recycling" 1 2 _
     (by decide) (by decide)⟩

/-!
## Claim C5: ISO week number
-/

/-- The ISO weekday is always in 1..7. -/
theorem isoWeekday_bounds (n : ℕ) : 1 ≤ isoWeekday n ∧ isoWeekday n ≤ 7 := by
  unfold isoWeekday jsWeekday
  split_ifs <;> omega

/-- The ISO weekday agrees with the shifted day number modulo 7. -/
theorem isoWeekday_mod (n : ℕ) : isoWeekday n % 7 = (n + 4) % 7 := by
  unfold isoWeekday jsWeekday
  split_ifs <;> omega

/-- Every year has 365 or 366 days. -/
theorem daysInYear_bounds (y : ℕ) : 365 ≤ daysInYear y ∧ daysInYear y ≤ 366 := by
  unfold daysInYear
  split_ifs <;> omega

/-- `k` years take at least `365 k` days. -/
theorem daysBeforeYear_lb (k : ℕ) : 365 * k ≤ daysBeforeYear k := by
  induction k with
  | zero => simp [daysBeforeYear]
  | succ k ih =>
      have := daysInYear_bounds (1970 + k)
      unfold daysBeforeYear
      omega

/-- Unfolding equation for `yearIndexOf`. -/
theorem yearIndexOf_def (n : ℕ) :
    yearIndexOf n =
      Nat.findGreatest (fun k => daysBeforeYear k ≤ n) (n / 365 + 1) := rfl

/-- Day `n` lies inside the year `yearIndexOf n` points at. -/
theorem yearIndexOf_spec (n : ℕ) :
    daysBeforeYear (yearIndexOf n) ≤ n ∧
    n < daysBeforeYear (yearIndexOf n + 1) := by
  have hP0 : daysBeforeYear 0 ≤ n := by simp [daysBeforeYear]
  have h1 : daysBeforeYear
      (Nat.findGreatest (fun k => daysBeforeYear k ≤ n) (n / 365 + 1)) ≤ n :=
    Nat.findGreatest_spec (P := fun k => daysBeforeYear k ≤ n) (m := 0)
      (Nat.zero_le _) hP0
  have hle : Nat.findGreatest (fun k => daysBeforeYear k ≤ n) (n / 365 + 1) ≤
      n / 365 + 1 := Nat.findGreatest_le _
  rw [yearIndexOf_def]
  refine ⟨h1, ?_⟩
  by_contra hcon
  push_neg at hcon
  by_cases hc : Nat.findGreatest (fun k => daysBeforeYear k ≤ n)
      (n / 365 + 1) + 1 ≤ n / 365 + 1
  · exact Nat.findGreatest_is_greatest (P := fun k => daysBeforeYear k ≤ n)
      (by omega) hc hcon
  · have hlb := daysBeforeYear_lb
      (Nat.findGreatest (fun k => daysBeforeYear k ≤ n) (n / 365 + 1) + 1)
    omega

/-- C5 (amended, web side): for every day from 1970-01-07 on, the web
app's `getISOWeek` equals the ISO-8601 week-of-year number (weeks start
Monday; week 1 is the week containing the year's first Thursday). -/
theorem c5_web_iso_week (n : ℕ) (hn : 6 ≤ n) : getISOWeek n = isoWeekSpec n := by
  have hw := isoWeekday_bounds n
  have hwm := isoWeekday_mod n
  have ht : thursdayOfWeek n = n + 4 - isoWeekday n := by
    unfold thursdayOfWeek mondayOfWeek
    omega
  simp only [getISOWeek, isoWeekSpec]
  rw [ht]
  set t := n + 4 - isoWeekday n with htdef
  have htmod : t % 7 = 0 := by omega
  have hys := yearIndexOf_spec t
  set k := yearIndexOf t with hkdef
  have hwj := isoWeekday_bounds (daysBeforeYear k)
  have hwjm := isoWeekday_mod (daysBeforeYear k)
  have hf : firstThursday k =
      daysBeforeYear k + (4 + 7 - isoWeekday (daysBeforeYear k)) % 7 := rfl
  set f := firstThursday k with hfdef
  have hfmod : f % 7 = 0 := by
    rw [hf]
    omega
  have hfoff : daysBeforeYear k ≤ f ∧ f ≤ daysBeforeYear k + 6 := by
    rw [hf]
    omega
  have htf : f ≤ t := by omega
  omega

/-- C5 witness: 1971-01-01 (day 365, a Friday) is ISO week 53 of 1970 on
both sides. -/
theorem c5_witness :
    getISOWeek 365 = isoWeekSpec 365 ∧ getISOWeek 365 = 53 :=
  ⟨c5_web_iso_week 365 (by decide), by decide⟩

/-- C5 counterexample: the Android `_getIsoWeek` is not the ISO-8601 week
number.  On 2026-01-11 (a Sunday, ISO week 2 of 2026) it returns 1: its
day-of-year is 0-based where the formula needs the 1-based ordinal, and
it never wraps into the previous year's week count. -/
theorem c5_counterexample :
    getIsoWeekDart (daysBeforeYear 56 + 10) = 1 ∧
    isoWeekSpec (daysBeforeYear 56 + 10) = 2 ∧
    getIsoWeekDart (daysBeforeYear 56 + 10) ≠
      isoWeekSpec (daysBeforeYear 56 + 10) := by
  refine ⟨?_, ?_, ?_⟩ <;> decide

/-!
## Claim C10: worker allowlist
-/

/-- Pure list form of the worker's regex test. -/
theorem propJson_list_iff (l : List Char) :
    (decide (17 < l.length) && "/properties/".toList.isPrefixOf l &&
      ".json".toList.isSuffixOf l &&
      ((l.drop 12).take (l.length - 17)).all Char.isDigit) = true ↔
      ∃ ds : List Char, ds ≠ [] ∧ (∀ c ∈ ds, c.isDigit = true) ∧
        l = "/properties/".toList ++ ds ++ ".json".toList := by
  have hpre12 : ("/properties/".toList).length = 12 := by decide
  have hsuf5 : (".json".toList).length = 5 := by decide
  simp only [Bool.and_eq_true, decide_eq_true_eq, List.all_eq_true,
    List.isPrefixOf_iff_prefix, List.isSuffixOf_iff_suffix]
  constructor
  · rintro ⟨⟨⟨hlen, ⟨t, ht⟩⟩, ⟨sfx, hs⟩⟩, hdig⟩
    have hlt : l.length = 12 + t.length := by
      rw [← ht, List.length_append, hpre12]
    have hslen : l.length = sfx.length + 5 := by
      rw [← hs, List.length_append, hsuf5]
    set m := t.take (t.length - 5) with hmdef
    have hmlen : m.length = t.length - 5 := by
      rw [hmdef, List.length_take]
      omega
    have htsplit : t = m ++ t.drop (t.length - 5) := by
      rw [hmdef, List.take_append_drop]
    have hcomb : ("/properties/".toList ++ m) ++ t.drop (t.length - 5) =
        sfx ++ ".json".toList := by
      rw [List.append_assoc, ← htsplit, ht, hs]
    have hlen2 : ("/properties/".toList ++ m).length = sfx.length := by
      rw [List.length_append, hpre12]
      omega
    obtain ⟨hsfx_eq, hr⟩ := List.append_inj hcomb hlen2
    refine ⟨m, ?_, ?_, ?_⟩
    · intro hmnil
      rw [hmnil] at hmlen
      simp at hmlen
      omega
    · intro c hc
      apply hdig
      have hd : l.drop 12 = t := by
        rw [← ht, ← hpre12, List.drop_left]
      have hm : (l.drop 12).take (l.length - 17) = m := by
        rw [hd, hmdef]
        congr 1
        omega
      rw [hm]
      exact hc
    · rw [← ht, htsplit, hr, List.append_assoc]
  · rintro ⟨ds, hne, hdig, hpath⟩
    have hdslen : 1 ≤ ds.length := by
      cases ds with
      | nil => exact absurd rfl hne
      | cons a l' => simp
    have hlen : l.length = 17 + ds.length := by
      have hcl := congrArg List.length hpath
      rw [List.length_append, List.length_append, hpre12, hsuf5] at hcl
      omega
    have hmid : (l.drop 12).take (l.length - 17) = ds := by
      have hd : l.drop 12 = ds ++ ".json".toList := by
        rw [hpath, List.append_assoc]
        exact List.drop_left' hpre12
      rw [hd]
      exact List.take_left' (by omega)
    refine ⟨⟨⟨by omega, ?_⟩, ?_⟩, ?_⟩
    · exact ⟨ds ++ ".json".toList, by rw [← List.append_assoc, ← hpath]⟩
    · exact ⟨"/properties/".toList ++ ds, hpath.symm⟩
    · intro c hc
      rw [hmid] at hc
      exact hdig c hc

/-- The executable regex test agrees with the shape
`/properties/` ++ digits ++ `.json`. -/
theorem propertiesJsonMatch_iff (path : String) :
    propertiesJsonMatch path = true ↔
      ∃ ds : List Char, ds ≠ [] ∧ (∀ c ∈ ds, c.isDigit = true) ∧
        path.toList = "/properties/".toList ++ ds ++ ".json".toList := by
  have h := propJson_list_iff path.toList
  unfold propertiesJsonMatch
  exact h

/-- C10: for a non-OPTIONS request, a path that neither starts with one
of the five allowlisted endpoint names nor matches
`/properties/<digits>.json` gets a 403 error response and is never
forwarded; an allowed path is forwarded to the upstream API with the
original query string appended. -/
theorem c10_worker_allowlist (req : ProxyRequest)
    (hm : req.method ≠ "OPTIONS") :
    (isAllowedPath req.path = false →
      workerFetch req =
        ProxyAction.errorResp 403 "\x7b\"error\":\"Not allowed\"\x7d" ∧
      ∀ u, workerFetch req ≠ ProxyAction.forwardTo u) ∧
    (isAllowedPath req.path = true →
      workerFetch req =
        ProxyAction.forwardTo (apiBase ++ req.path ++ req.search)) ∧
    (isAllowedPath req.path = true ↔
      (∃ p ∈ (["/localities", "/streets", "/properties", "/materials",
          "/events"] : List String), strStartsWith req.path p = true) ∨
      ∃ ds : List Char, ds ≠ [] ∧ (∀ c ∈ ds, c.isDigit = true) ∧
        req.path.toList = "/properties/".toList ++ ds ++ ".json".toList) := by
  refine ⟨?_, ?_, ?_⟩
  · intro hfalse
    constructor
    · unfold workerFetch
      rw [if_neg hm, if_neg (by simp [hfalse])]
    · intro u
      unfold workerFetch
      rw [if_neg hm, if_neg (by simp [hfalse])]
      simp
  · intro htrue
    unfold workerFetch
    rw [if_neg hm, if_pos (by simp [htrue])]
  · have h1 : replaceDotJson "/localities.json" = "/localities" := by decide
    have h2 : replaceDotJson "/streets.json" = "/streets" := by decide
    have h3 : replaceDotJson "/properties.json" = "/properties" := by decide
    have h4 : replaceDotJson "/materials.json" = "/materials" := by decide
    have h5 : replaceDotJson "/events.json" = "/events" := by decide
    unfold isAllowedPath allowedPaths
    simp only [List.any_cons, List.any_nil, h1, h2, h3, h4, h5,
      Bool.or_eq_true, Bool.or_false, ← propertiesJsonMatch_iff]
    simp only [List.mem_cons, List.not_mem_nil, or_false]
    constructor
    · rintro ((h | h | h | h | h) | h)
      · exact Or.inl ⟨"/localities", by simp, h⟩
      · exact Or.inl ⟨"/streets", by simp, h⟩
      · exact Or.inl ⟨"/properties", by simp, h⟩
      · exact Or.inl ⟨"/materials", by simp, h⟩
      · exact Or.inl ⟨"/events", by simp, h⟩
      · exact Or.inr h
    · rintro (⟨p, hp, hpre⟩ | h)
      · rcases hp with h' | h' | h' | h' | h' <;> subst h' <;> simp [hpre]
      · exact Or.inr h

/-- C10 witness: a disallowed path is refused with a 403 and an allowed
path is forwarded with its query string. -/
theorem c10_witness :
    workerFetch ⟨"GET", "/admin", ""⟩ =
      ProxyAction.errorResp 403 "\x7b\"error\":\"Not allowed\"\x7d" ∧
    workerFetch ⟨"GET", "/localities.json", "?q=1"⟩ =
      ProxyAction.forwardTo (apiBase ++ "/localities.json" ++ "?q=1") :=
  ⟨((c10_worker_allowlist ⟨"GET", "/admin", ""⟩ (by decide)).1 (by decide)).1,
   (c10_worker_allowlist ⟨"GET", "/localities.json", "?q=1"⟩
     (by decide)).2.1 (by decide)⟩

end BinDayBrain
